import Mathlib

/-!
Verification development for the propcombine module
(`src/hammeraddons/propcombine.py`): static-prop clustering, cluster
fingerprinting, the merged-model build cache, and the QC compile step.

Real numbers from the source are modelled as exact rationals (`ℚ`).
Python's `round(x, n)` (banker's rounding to `n` decimal places) and the
`'{:g}'` format (6 significant decimal digits) are modelled exactly on `ℚ`
with round-half-to-even.  Python `set` / `frozenset` values are modelled as
`Finset` where only membership matters, and as duplicate-free lists where
the source iterates over them (the iteration order of a Python set is
arbitrary, so list order stands for one arbitrary but fixed ordering).
-/

/-- Round-half-to-even to an integer, the rounding used by Python's builtin
`round` and by IEEE formatting: nearest integer, ties to the even one. -/
def rndHE (x : ℚ) : ℤ :=
  let f : ℤ := ⌊x⌋
  let r : ℚ := x - (f : ℚ)
  if r < 1/2 then f
  else if 1/2 < r then f + 1
  else if 2 ∣ f then f else f + 1

/-- Python `round(x, 7)`: round to 7 decimal places (half-to-even).
This is what `round(vec, 7)` performs componentwise in `combine_group`. -/
def pyRound7 (q : ℚ) : ℚ := (rndHE (q * 10000000) : ℚ) / 10000000

/-- Rounding to 6 significant decimal digits of a positive rational: the value
printed (and hence re-parsed) by Python's `'{:g}'.format` for a positive
number. -/
def fmtGpos (q : ℚ) : ℚ :=
  let e : ℤ := Int.log 10 q
  (rndHE (q / (10 : ℚ) ^ (e - 5)) : ℚ) * (10 : ℚ) ^ (e - 5)

/-- The value that survives writing a number with Python's `'{:g}'` format
(6 significant digits) and parsing it back, as done by
`ModelManager.finalise` / `ModelManager.load` for origins and angles. -/
def fmtG (q : ℚ) : ℚ :=
  if q = 0 then 0
  else if q < 0 then - fmtGpos (-q)
  else fmtGpos q

/-- Modelled from the spec: rounding to 7 *significant* decimal digits
(positive case).  The spec's Fingerprint section asks for this; it is the
comparison point for the rounding the source actually performs. -/
def sigRound7Pos (q : ℚ) : ℚ :=
  let e : ℤ := Int.log 10 q
  (rndHE (q / (10 : ℚ) ^ (e - 6)) : ℚ) * (10 : ℚ) ^ (e - 6)

/-- Modelled from the spec: rounding to 7 significant decimal digits. -/
def sigRound7 (q : ℚ) : ℚ :=
  if q = 0 then 0
  else if q < 0 then - sigRound7Pos (-q)
  else sigRound7Pos q

/-- Stable insertion of a keyed element into a key-sorted list: the new
element goes after every element whose key is `≤` its own, matching the
stability of Python's `list.sort`. -/
def insPair {α : Type} (x : α × ℚ) : List (α × ℚ) → List (α × ℚ)
  | [] => [x]
  | y :: ys => if y.2 ≤ x.2 then y :: insPair x ys else x :: y :: ys

/-- Stable sort of a `(value, key)` list by ascending key, the model of
`cluster_list.sort(key=lambda t: t[1])`. -/
def sortPairs {α : Type} (l : List (α × ℚ)) : List (α × ℚ) :=
  l.foldl (fun acc x => insPair x acc) []

/-- Insertion into an ascending integer list. -/
def insZ (x : ℤ) : List ℤ → List ℤ
  | [] => [x]
  | y :: ys => if y ≤ x then y :: insZ x ys else x :: y :: ys

/-- Ascending sort of an integer list, the model of Python `sorted`. -/
def sortZ (l : List ℤ) : List ℤ := l.foldr insZ []

/-- ASCII lowercasing of one character. -/
def charFold (c : Char) : Char :=
  if 'A' ≤ c ∧ c ≤ 'Z' then Char.ofNat (c.toNat + 32) else c

/-- Model of Python `str.casefold` as used on `$surfaceprop` values
(ASCII lowercasing; surface property names are ASCII identifiers). -/
def strCasefold (s : String) : String := ⟨s.data.map charFold⟩

/-- Vector of three exact rationals, modelling `srctools.Vec`. -/
structure Vec where
  x : ℚ
  y : ℚ
  z : ℚ
deriving DecidableEq, Repr

/-- Squared distance between two points, the model of
`(a - b).mag_sq()`. -/
def distSqV (a b : Vec) : ℚ :=
  (a.x - b.x) * (a.x - b.x) + (a.y - b.y) * (a.y - b.y) +
    (a.z - b.z) * (a.z - b.z)

/-- The source's `in_bbox(pos, bb_min, bb_max)`: componentwise containment test with
inclusive boundaries, translated clause for clause from the source. -/
def inBbox (pos bbMin bbMax : Vec) : Bool :=
  if pos.x < bbMin.x ∨ bbMax.x < pos.x then false
  else if pos.y < bbMin.y ∨ bbMax.y < pos.y then false
  else if pos.z < bbMin.z ∨ bbMax.z < pos.z then false
  else true

/-- The `PropPos` namedtuple: one member of a cluster fingerprint. -/
structure PropPos where
  x : ℚ
  y : ℚ
  z : ℚ
  pit : ℚ
  yaw : ℚ
  rol : ℚ
  model : String
  skin : ℤ
deriving DecidableEq, Repr

/-- The fields of `srctools.bsp.StaticProp` that propcombine reads or
writes.  `flags` is the integer value of the flag bitfield. -/
structure SProp where
  model : String
  skin : ℤ
  origin : Vec
  angles : Vec
  scaling : ℚ
  visleafs : List ℤ
  solidity : ℤ
  flags : ℤ
  lightingOrigin : Vec
  tint : Vec
  renderfx : ℤ
deriving DecidableEq, Repr

/-- The `MergedModel` class: a cached build record (generated name, collision flag,
used-this-run flag). -/
structure MergedModel where
  name : String
  has_coll : Bool
  used : Bool
deriving DecidableEq, Repr

/-- Sum of the x components of the origins of a prop list. -/
def sumX (props : List SProp) : ℚ := (props.map fun p => p.origin.x).sum

/-- Sum of the y components of the origins of a prop list. -/
def sumY (props : List SProp) : ℚ := (props.map fun p => p.origin.y).sum

/-- Sum of the z components of the origins of a prop list. -/
def sumZ (props : List SProp) : ℚ := (props.map fun p => p.origin.z).sum

/-- The `avg_pos` value in `combine_group`: the arithmetic mean of the member
origins (the cluster centroid). -/
def centroid (props : List SProp) : Vec :=
  ⟨sumX props / props.length, sumY props / props.length,
    sumZ props / props.length⟩

/-- The per-member fingerprint tuple built in `combine_group`:
`origin = round((prop.origin - avg_pos).rotate(0, -avg_yaw, 0), 7)` and
`angles = round(Vec(prop.angles), 7)`.  The source assigns `avg_yaw = 0`
immediately before this loop, so the rotation is by zero degrees and is
the identity; the subtraction-then-round remains. -/
def mkPropPos (p : SProp) (avg : Vec) : PropPos :=
  ⟨pyRound7 (p.origin.x - avg.x), pyRound7 (p.origin.y - avg.y),
    pyRound7 (p.origin.z - avg.z),
    pyRound7 p.angles.x, pyRound7 p.angles.y, pyRound7 p.angles.z,
    p.model, p.skin⟩

/-- The `prop_key` value in `combine_group`: the cluster Fingerprint, the frozenset
of the per-member tuples. -/
def propKey (props : List SProp) : Finset PropPos :=
  (props.map fun p => mkPropPos p (centroid props)).toFinset

/-- The `sorted(visleafs)` result where `visleafs` is the union of the members'
visleaf sets: the ascending duplicate-free list of all visleaf ids. -/
def sortedVisleafs (props : List SProp) : List ℤ :=
  sortZ ((props.flatMap fun p => p.visleafs).dedup)

/-- Boolean membership of a prop in a list, the model of Python's `in` /
`not in` on collections of `StaticProp` objects. -/
def memB (p : SProp) : List SProp → Bool
  | [] => false
  | q :: qs => if p = q then true else memB p qs

/-- Mutable state of a `ModelManager`: the fingerprint → record cache
(`_mdl_cache`, an association list with at most one entry per key), the
allocated generated names (`_mdl_names`), the stream of name candidates
that `random.getrandbits(16)` would produce (an oracle for the external
randomness), the `models/maps/<map>/propcombine/` folder fragment, and a
counter of how many times `compile` has run this run. -/
structure MMState where
  cache : List (Finset PropPos × MergedModel)
  names : List String
  supply : List String
  folder : String
  compiles : ℕ

/-- The `self._mdl_cache[prop_key]` lookup: first entry with an equal key. -/
def lookupCache : List (Finset PropPos × MergedModel) → Finset PropPos →
    Option MergedModel
  | [], _ => none
  | (k, m) :: rest, key =>
    if k = key then some m else lookupCache rest key

/-- Effect of `merged.used = True` on the record stored under `key`: update the
matching cache entry in place. -/
def markUsed : List (Finset PropPos × MergedModel) → Finset PropPos →
    List (Finset PropPos × MergedModel)
  | [], _ => []
  | (k, m) :: rest, key =>
    if k = key then (k, ⟨m.name, m.has_coll, true⟩) :: rest
    else (k, m) :: markUsed rest key

/-- The name-probing loop: take candidates from the random stream until one
is not in `_mdl_names`; return it with the rest of the stream, or `none`
if the (finite oracle) stream runs out — the source loops forever in that
situation. -/
def findFresh : List String → List String → Option (String × List String)
  | [], _ => none
  | n :: rest, names =>
    if n ∈ names then findFresh rest names else some (n, rest)

/-- The model path of a generated merged model:
`'models/{}{}.mdl'.format(self.model_folder, merged.name)`. -/
def mergedModelPath (folder name : String) : String :=
  "models/" ++ folder ++ name ++ ".mdl"

/-- The method `ModelManager.combine_group`: compute the cluster Fingerprint, look it
up in the cache (building and registering a new record on a miss, which
invokes `compile` — counted in `compiles`), mark the record used, and
return the synthetic merged `StaticProp`.  Returns `none` when the prop
list is empty (the source would divide by zero / index out of range) or
when the name oracle is exhausted (the source would loop forever).
The packing of artifact files and deletion of stale `.phy` files are
filesystem effects outside the model. -/
def combineGroup (st : MMState) (props : List SProp) :
    Option (SProp × MMState) :=
  match props with
  | [] => none
  | p0 :: _ =>
    let key := propKey props
    let avg := centroid props
    let step1 : Option (MergedModel × MMState) :=
      match lookupCache st.cache key with
      | some m => some (m, st)
      | none =>
        match findFresh st.supply st.names with
        | none => none
        | some (name, supply2) =>
          let m : MergedModel := ⟨name, p0.solidity ≠ 0, false⟩
          some (m, ⟨(key, m) :: st.cache, name :: st.names, supply2,
            st.folder, st.compiles + 1⟩)
    match step1 with
    | none => none
    | some (m, st1) =>
      some (⟨mergedModelPath st1.folder m.name, 0, avg, ⟨0, 270, 0⟩, 1,
        sortedVisleafs props,
        if m.has_coll then p0.solidity else 0,
        p0.flags, avg, p0.tint, p0.renderfx⟩,
        ⟨markUsed st1.cache key, st1.names, st1.supply, st1.folder,
          st1.compiles⟩)

/-- The metadata `compile` reads from a parsed source model
(`srctools.mdl.Model`): its `$surfaceprop` string and its contents mask. -/
structure ModelInfo where
  surfaceprop : String
  contents : ℕ

/-- The failure modes of the header section of `ModelManager.compile`:
the two explicit `raise ValueError(...)` checks for plural value sets, and
the `ValueError` that unpacking `[surfprop] = surfprops` raises on an
empty cluster. -/
inductive CompileErr where
  | multipleSurfaceprops : CompileErr
  | multipleContents : CompileErr
  | emptyCluster : CompileErr
deriving DecidableEq, Repr

/-- The value-unification section of `ModelManager.compile` (lines
327-345): collect `mdl.surfaceprop.casefold()` and `mdl.contents` over the
cluster members, fail loudly if either set is plural, then unpack the
singletons.  Returns the unified `(surfaceprop, contents)` pair. -/
def compileHeader (lookup : String → ModelInfo) (prop_pos : List PropPos) :
    Except CompileErr (String × ℕ) :=
  let surfprops :=
    (prop_pos.map fun pp => strCasefold (lookup pp.model).surfaceprop).dedup
  let contents := (prop_pos.map fun pp => (lookup pp.model).contents).dedup
  if 1 < surfprops.length then .error .multipleSurfaceprops
  else if 1 < contents.length then .error .multipleContents
  else
    match surfprops, contents with
    | [s], [c] => .ok (s, c)
    | _, _ => .error .emptyCluster

/-- The `$contents` keywords emitted by `compile` for a contents mask:
decompose the mask against the four allowed bits, falling back to
`notsolid` for zero. -/
def contentsWords (mask : ℕ) : List String :=
  let words := [(1, "solid"), (8, "grate"),
    (33554432, "monster"), (536870912, "ladder")].filterMap
    fun mc => if mc.1 &&& mask ≠ 0 then some mc.2 else none
  if words = [] then ["notsolid"] else words

/-- What one fingerprint member looks like after `finalise` writes it with
`'{:g} {:g} {:g}'` and `load` parses it back: every numeric transform
component passes through 6-significant-digit formatting; the model path
and skin survive exactly. -/
def serializePos (pp : PropPos) : PropPos :=
  ⟨fmtG pp.x, fmtG pp.y, fmtG pp.z, fmtG pp.pit, fmtG pp.yaw, fmtG pp.rol,
    pp.model, pp.skin⟩

/-- The persisted content of a cache state: `finalise` writes one block per
record with `used = True`, carrying its name and collision flag. -/
def usedEntries (cache : List (Finset PropPos × MergedModel)) :
    List (Finset PropPos × String × Bool) :=
  cache.filterMap fun km =>
    if km.2.used then some (km.1, km.2.name, km.2.has_coll) else none

/-- The `(Fingerprint, name, has_coll)` entries that `load` reconstructs
from a cache file written by `finalise`: the used records, with every
member transform filtered through the `'{:g}'` write/parse round trip. -/
def reloadEntries (cache : List (Finset PropPos × MergedModel)) :
    List (Finset PropPos × String × Bool) :=
  cache.filterMap fun km =>
    if km.2.used then
      some (km.1.image serializePos, km.2.name, km.2.has_coll)
    else none

/-- The constant `MAX_GROUP`: studiomdl's hard ceiling on cluster size. -/
def MAX_GROUP : ℕ := 24

/-- The gather loop of `group_props_auto`: scan the unprocessed pool in
iteration order, adding every prop within `2*dist` (squared comparison
against `large_dist_sq`) of the seed to the cluster, and stop as soon as
the cluster exceeds `MAX_GROUP` members (the check runs after the add, so
the gathered set can reach 25). -/
def gather (largeSq : ℚ) (center : SProp) :
    List SProp → List SProp → List SProp
  | acc, [] => acc
  | acc, p :: ps =>
    if distSqV center.origin p.origin ≤ largeSq then
      let acc2 := acc ++ [p]
      if MAX_GROUP < acc2.length then acc2
      else gather largeSq center acc2 ps
    else gather largeSq center acc ps

/-- The `Vec.bbox` call over a list of points: componentwise minimum and maximum.
The source always calls it on a non-empty cluster; the empty case returns
a degenerate box at the origin. -/
def bboxList : List Vec → Vec × Vec
  | [] => (⟨0, 0, 0⟩, ⟨0, 0, 0⟩)
  | v :: vs =>
    vs.foldl
      (fun mm u =>
        (⟨min mm.1.x u.x, min mm.1.y u.y, min mm.1.z u.z⟩,
          ⟨max mm.2.x u.x, max mm.2.y u.y, max mm.2.z u.z⟩))
      (v, v)

/-- The re-filter stage of `group_props_auto`: take the gathered cluster,
keep the members within `dist` (squared) of the bounding-box centre, sort
them by ascending distance to that centre (stably, as `list.sort` does),
and keep at most the `MAX_GROUP` nearest. -/
def keptOf (distSq largeSq : ℚ) (center : SProp) (rest : List SProp) :
    List SProp :=
  let cluster := gather largeSq center [center] rest
  let bb := bboxList (cluster.map fun p => p.origin)
  let cpos : Vec := ⟨(bb.1.x + bb.2.x) / 2, (bb.1.y + bb.2.y) / 2,
    (bb.1.z + bb.2.z) / 2⟩
  let pairs := cluster.filterMap fun p =>
    let off := distSqV cpos p.origin
    if off ≤ distSq then some (p, off) else none
  ((sortPairs pairs).take MAX_GROUP).map fun po => po.1

/-- The outcome of one iteration of the `while todo:` loop of
`group_props_auto` after the seed `center` has been popped: the remaining
pool, the props appended to `rejected` by this iteration, the cluster
yielded (if any), and the re-filtered kept set (empty when the iteration
bailed out at the gathered-set size check). -/
structure AutoStepOut where
  newTodo : List SProp
  rejectedAdd : List SProp
  emitted : Option (List SProp)
  kept : List SProp
deriving Repr

/-- One iteration of the per-bucket loop of `group_props_auto`: gather
around the popped seed; if the gathered set is smaller than `min_cluster`
reject only the seed (the rest of the pool is untouched); otherwise
compute the kept set, remove all its members from the pool
(`todo.difference_update(cluster_list)` runs before the size check), and
either yield it or reject all of it depending on its size. -/
def autoStep (distSq largeSq : ℚ) (minc : ℕ) (center : SProp)
    (rest : List SProp) : AutoStepOut :=
  let cluster := gather largeSq center [center] rest
  if cluster.length < minc then ⟨rest, [center], none, []⟩
  else
    let kept := keptOf distSq largeSq center rest
    let newTodo := rest.filter fun p => ! memB p kept
    if minc ≤ kept.length then ⟨newTodo, [], some kept, kept⟩
    else ⟨newTodo, kept, none, kept⟩

/-- The `while todo:` loop of `group_props_auto` for one bucket: pop a
seed, run one iteration, and continue on the remaining pool, accumulating
yielded clusters and rejected props. -/
def processBucket (distSq largeSq : ℚ) (minc : ℕ) :
    List SProp → List (List SProp) × List SProp
  | [] => ([], [])
  | center :: rest =>
    let o := autoStep distSq largeSq minc center rest
    let next := processBucket distSq largeSq minc o.newTodo
    (o.emitted.toList ++ next.1, o.rejectedAdd ++ next.2)
termination_by todo => todo.length
decreasing_by
  have h : ∀ (dq lq : ℚ) (mc : ℕ) (c : SProp) (r : List SProp),
      (autoStep dq lq mc c r).newTodo.length ≤ r.length := by
    intro dq lq mc c r
    unfold autoStep
    dsimp only
    split
    · exact le_refl _
    · split <;> exact List.length_filter_le _ _
  exact Nat.lt_succ_of_le (h _ _ _ _ _)

/-- The generator `group_props_auto`: per bucket, reject buckets of fewer than two props
outright, otherwise run the clustering loop; returns the yielded clusters
and the rejected props.  A bucket's `set(group)` is modelled by the
bucket list itself (one arbitrary iteration order of the Python set). -/
def groupPropsAuto (dist : ℚ) (minc : ℕ) :
    List (List SProp) → List (List SProp) × List SProp
  | [] => ([], [])
  | g :: gs =>
    let next := groupPropsAuto dist minc gs
    if g.length < 2 then (next.1, g ++ next.2)
    else
      let pb := processBucket (dist * dist) (4 * (dist * dist)) minc g
      (pb.1 ++ next.1, pb.2 ++ next.2)

/-- One named propcombine region set for `group_props_ent`: the skin
texture filter (`frozenset('')`, i.e. empty, when no prop filter was
given) and the axis-aligned boxes sharing this name. -/
structure EntRegion where
  skins : Finset String
  boxes : List (Vec × Vec)

/-- Whether a prop's origin lies in any of a region's boxes — the inner
`for bbox_min, bbox_max in bboxes: if in_bbox(...)` loop (the `break`
makes membership in the first containing box equivalent to membership in
any). -/
def propInBoxes (boxes : List (Vec × Vec)) (p : SProp) : Bool :=
  boxes.any fun bb => inBbox p.origin bb.1 bb.2

/-- The loop state of `group_props_ent` while scanning the regions for one
bucket.  `bucket` is the list object stored in `prop_groups` (the one the
final rejection pass reads).  `cur` is what the loop variable `group`
currently refers to: `none` while it still aliases the bucket, and
`some l` after `for group in found.values():` has rebound it to a found
cluster `l` — from then on the scan and the removals run on `l`, not on
the bucket. -/
structure EntBucketState where
  bucket : List SProp
  cur : Option (List SProp)

/-- Processing of one `(name, skinset), bboxes` entry of `bbox_groups`
for one bucket: skip it unless the skin filter is empty or equal to the
bucket's skinset; otherwise scan the list `group` currently refers to,
move the props inside the region's boxes into `found`, and — when any
were found — emit or reject them by size and leave the loop variable
`group` rebound to that found list.  Returns the new state, the clusters
yielded and the props rejected by this entry. -/
def entRegionStep (minc : ℕ) (sk : Finset String) (st : EntBucketState)
    (reg : EntRegion) : EntBucketState × List (List SProp) × List SProp :=
  if reg.skins ≠ ∅ ∧ reg.skins ≠ sk then (st, [], [])
  else
    let scan := st.cur.getD st.bucket
    let found := scan.filter fun p => propInBoxes reg.boxes p
    let left := scan.filter fun p => ! propInBoxes reg.boxes p
    if found.isEmpty then (st, [], [])
    else
      let st2 : EntBucketState :=
        match st.cur with
        | none => ⟨left, some found⟩
        | some _ => ⟨st.bucket, some found⟩
      if found.length < minc then (st2, [], found)
      else (st2, [found], [])

/-- Processing of `group_props_ent` for one bucket: reject (and clear) buckets below
`min_cluster` immediately; otherwise run every region entry over the
bucket and return the clusters yielded, the props rejected during the
scan, and the remnant of the bucket list (rejected by the final pass). -/
def entProcessBucket (minc : ℕ) (sk : Finset String) (group : List SProp)
    (regions : List EntRegion) :
    List (List SProp) × List SProp × List SProp :=
  if group.length < minc then ([], group, [])
  else
    let out := regions.foldl
      (fun acc reg =>
        let step := entRegionStep minc sk acc.1 reg
        (step.1, acc.2.1 ++ step.2.1, acc.2.2 ++ step.2.2))
      ((⟨group, none⟩ : EntBucketState), ([], []))
    (out.2.1, out.2.2, out.1.bucket)

/-- The generator `group_props_ent`: run every bucket against the region entries, then
reject everything still sitting in the bucket lists.  Returns the yielded
clusters and the rejected props. -/
def groupPropsEnt (buckets : List (Finset String × List SProp))
    (regions : List EntRegion) (minc : ℕ) :
    List (List SProp) × List SProp :=
  let out := buckets.foldl
    (fun acc bk =>
      let pb := entProcessBucket minc bk.1 bk.2 regions
      (acc.1 ++ pb.1, acc.2.1 ++ pb.2.1, acc.2.2 ++ pb.2.2))
    ([], [], [])
  (out.1, out.2.1 ++ out.2.2)

/-- Translation of a placed prop by a common offset `d` (the fingerprint
reads only the origin, the angles, the model and the skin). -/
def translateProp (d : Vec) (p : SProp) : SProp :=
  { p with origin := ⟨p.origin.x + d.x, p.origin.y + d.y, p.origin.z + d.z⟩ }

/-- A common yaw rotation of 90 degrees about the vertical axis applied to
a placed prop: the origin rotates about the world origin
(`(x, y) ↦ (-y, x)`) and 90 degrees is added to the yaw angle. -/
def yawRot90 (p : SProp) : SProp :=
  { p with
    origin := ⟨-p.origin.y, p.origin.x, p.origin.z⟩,
    angles := ⟨p.angles.x, p.angles.y + 90, p.angles.z⟩ }

/-- Modelled from the spec: the per-member fingerprint tuple as the spec
words it — relative position and orientation each rounded to 7
*significant* decimal digits. -/
def mkPropPosSig (p : SProp) (avg : Vec) : PropPos :=
  ⟨sigRound7 (p.origin.x - avg.x), sigRound7 (p.origin.y - avg.y),
    sigRound7 (p.origin.z - avg.z),
    sigRound7 p.angles.x, sigRound7 p.angles.y, sigRound7 p.angles.z,
    p.model, p.skin⟩

/-- Modelled from the spec: the cluster Fingerprint built from
7-significant-digit rounded member tuples, for comparison with the
source's `propKey`. -/
def propKeySig (props : List SProp) : Finset PropPos :=
  (props.map fun p => mkPropPosSig p (centroid props)).toFinset

/-- A concrete `StaticProp` for tests: model, skin, origin, angles,
solidity and visleafs given, the remaining fields fixed. -/
def mkTestProp (model : String) (skin : ℤ) (origin angles : Vec)
    (solidity : ℤ) (vis : List ℤ) : SProp :=
  ⟨model, skin, origin, angles, 1, vis, solidity, 0, origin, ⟨1, 1, 1⟩, 0⟩

/-- Seed of the destructive-rejection scenario: a prop at x = 100. -/
def sC5 : SProp := mkTestProp "models/a.mdl" 0 ⟨100, 0, 0⟩ ⟨0, 0, 0⟩ 0 []

/-- A prop at x = 0, within `2*dist` of the seed but far from the
bounding-box centre. -/
def bC5 : SProp := mkTestProp "models/a.mdl" 0 ⟨0, 0, 0⟩ ⟨0, 0, 0⟩ 0 []

/-- A prop at x = 101, next to the seed and inside the kept set. -/
def aC5 : SProp := mkTestProp "models/a.mdl" 0 ⟨101, 0, 0⟩ ⟨0, 0, 0⟩ 0 []

/-- A prop at x = 200, within `2*dist` of the seed but far from the
bounding-box centre. -/
def dC5 : SProp := mkTestProp "models/a.mdl" 0 ⟨200, 0, 0⟩ ⟨0, 0, 0⟩ 0 []

/-- The spec's automatic-clustering scenario: three same-model props at
x = 0, 100, 200. -/
def pA0 : SProp := mkTestProp "models/a.mdl" 0 ⟨0, 0, 0⟩ ⟨0, 0, 0⟩ 0 [1]

/-- Scenario prop at x = 100. -/
def pA100 : SProp := mkTestProp "models/a.mdl" 0 ⟨100, 0, 0⟩ ⟨0, 0, 0⟩ 0 [2]

/-- Scenario prop at x = 200. -/
def pA200 : SProp := mkTestProp "models/a.mdl" 0 ⟨200, 0, 0⟩ ⟨0, 0, 0⟩ 0 [3]

/-- High-precision prop for the significant-digit counterexample: its
origin x-coordinate 12345.678909 carries 11 significant digits but only 6
decimal places. -/
def p7a : SProp :=
  mkTestProp "models/a.mdl" 0 ⟨12345678909/1000000, 0, 0⟩ ⟨0, 0, 0⟩ 0 []

/-- Mirror prop at x = -12345.678909, making the cluster centroid the
origin. -/
def p7b : SProp :=
  mkTestProp "models/a.mdl" 0 ⟨-12345678909/1000000, 0, 0⟩ ⟨0, 0, 0⟩ 0 []

/-- A fingerprint member whose x-coordinate 12.3456789 carries 9
significant digits (7 decimal places, as `combine_group` produces), more
than the 6 significant digits that `'{:g}'` preserves. -/
def ppBad : PropPos := ⟨123456789/10000000, 0, 0, 0, 0, 0, "models/a.mdl", 0⟩

/-- A cache state holding one used record under a fingerprint that is not
representable at 6 significant digits. -/
def cacheBad : List (Finset PropPos × MergedModel) :=
  [({ppBad}, ⟨"merge_0001", false, true⟩)]

/-- A fingerprint member whose numeric fields all survive `'{:g}'`. -/
def ppZero : PropPos := ⟨0, 0, 0, 0, 0, 0, "models/b.mdl", 1⟩

/-- A cache state with one used, representable record and one unused
record (the latter is dropped by `finalise`). -/
def cacheGood : List (Finset PropPos × MergedModel) :=
  [({ppZero}, ⟨"merge_0002", true, true⟩), (∅, ⟨"merge_0003", false, false⟩)]

/-- A solid prop (solidity 6) at the origin seeing visleaf 1. -/
def pB0 : SProp := mkTestProp "models/a.mdl" 0 ⟨0, 0, 0⟩ ⟨0, 0, 0⟩ 6 [1]

/-- A solid prop (solidity 6) at x = 100 seeing visleaf 2. -/
def pB100 : SProp := mkTestProp "models/a.mdl" 0 ⟨100, 0, 0⟩ ⟨0, 0, 0⟩ 6 [2]

/-- A fresh `ModelManager` state: empty cache and name set, one random
name candidate available, no compiles yet. -/
def st0 : MMState := ⟨[], [], ["merge_0001"], "maps/demo/propcombine/", 0⟩

/-- The merged prop returned for the cluster `[pB0, pB100]` from the
fresh state: centroid (50,0,0), fixed angles (0,270,0), united visleafs,
solidity kept because the members are solid. -/
def r1x : SProp :=
  ⟨mergedModelPath "maps/demo/propcombine/" "merge_0001", 0, ⟨50, 0, 0⟩,
    ⟨0, 270, 0⟩, 1, [1, 2], 6, 0, ⟨50, 0, 0⟩, ⟨1, 1, 1⟩, 0⟩

/-- The manager state after that first `combine_group` call: one used
cache record, the name allocated, one compile performed. -/
def st1x : MMState :=
  ⟨[(propKey [pB0, pB100], ⟨"merge_0001", true, true⟩)], ["merge_0001"],
    [], "maps/demo/propcombine/", 1⟩

/-- A model-metadata lookup under which two models carry surface
properties that differ only in letter case ("Metal" vs "metal") and equal
contents masks. -/
def lkC9 : String → ModelInfo := fun s =>
  if s = "models/a.mdl" then ⟨"Metal", 1⟩ else ⟨"metal", 1⟩

/-- A fingerprint member referencing the "Metal" model. -/
def ppM1 : PropPos := ⟨0, 0, 0, 0, 0, 0, "models/a.mdl", 0⟩

/-- A fingerprint member referencing the "metal" model. -/
def ppM2 : PropPos := ⟨100, 0, 0, 0, 0, 0, "models/b.mdl", 0⟩

/-- Region-scenario prop inside the first region's box. -/
def pR1a : SProp := mkTestProp "models/a.mdl" 0 ⟨0, 0, 0⟩ ⟨0, 0, 0⟩ 0 []

/-- Second region-scenario prop inside the first region's box. -/
def pR1b : SProp := mkTestProp "models/a.mdl" 0 ⟨1, 0, 0⟩ ⟨0, 0, 0⟩ 0 []

/-- Region-scenario prop inside only the second region's box. -/
def pR2a : SProp := mkTestProp "models/a.mdl" 0 ⟨10, 0, 0⟩ ⟨0, 0, 0⟩ 0 []

/-- Second region-scenario prop inside only the second region's box. -/
def pR2b : SProp := mkTestProp "models/a.mdl" 0 ⟨11, 0, 0⟩ ⟨0, 0, 0⟩ 0 []

/-- Unfiltered region whose box covers the props at x = 0, 1. -/
def regR1 : EntRegion := ⟨∅, [(⟨-2, -2, -2⟩, ⟨2, 2, 2⟩)]⟩

/-- Unfiltered region whose box covers the props at x = 10, 11. -/
def regR2 : EntRegion := ⟨∅, [(⟨9, -2, -2⟩, ⟨12, 2, 2⟩)]⟩

/-- Half-even rounding of an integer is the integer itself. -/
theorem rndHE_intCast (n : ℤ) : rndHE (n : ℚ) = n := by
  unfold rndHE
  norm_num

/-- A rational with at most 7 decimal places is fixed by `round(x, 7)`. -/
theorem pyRound7_eq_self (a : ℤ) :
    pyRound7 ((a : ℚ) / 10000000) = (a : ℚ) / 10000000 := by
  unfold pyRound7
  rw [div_mul_cancel₀ _ (by norm_num : (10000000 : ℚ) ≠ 0), rndHE_intCast]

/-- Integers are fixed by `round(x, 7)`. -/
theorem pyRound7_intCast (n : ℤ) : pyRound7 (n : ℚ) = n := by
  have h : ((n : ℚ)) = ((n * 10000000 : ℤ) : ℚ) / 10000000 := by
    push_cast
    ring
  rw [h, pyRound7_eq_self]

/-- Rounding zero to 7 decimal places gives zero. -/
theorem pyRound7_zero : pyRound7 0 = 0 := by
  have h := pyRound7_intCast 0
  norm_num at h
  exact h

/-- Rounding 90 to 7 decimal places keeps it. -/
theorem pyRound7_ninety : pyRound7 90 = 90 := by
  have h := pyRound7_intCast 90
  norm_num at h
  exact h

/-- The value 12345.678909 has only 6 decimal places, so `round(x, 7)` keeps it. -/
theorem pyRound7_big : pyRound7 (12345678909/1000000) = 12345678909/1000000 := by
  have h := pyRound7_eq_self 123456789090
  norm_num at h
  exact h

/-- Likewise `round(-12345.678909, 7)` keeps the value. -/
theorem pyRound7_neg_big :
    pyRound7 (-(12345678909/1000000)) = -(12345678909/1000000) := by
  have h := pyRound7_eq_self (-123456789090)
  norm_num at h
  exact h

/-- Half-even rounding of 1234567.8909 rounds up. -/
theorem rndHE_mid : rndHE (12345678909/10000 : ℚ) = 1234568 := by
  unfold rndHE
  have hf : ⌊(12345678909/10000 : ℚ)⌋ = 1234567 := by
    rw [Int.floor_eq_iff]
    constructor <;> norm_num
  dsimp only
  rw [hf]
  norm_num

/-- The value 12345.678909 rounded to 7 significant decimal digits is 12345.68. -/
theorem sigRound7Pos_big : sigRound7Pos (12345678909/1000000) = 1234568/100 := by
  unfold sigRound7Pos
  have hlog : Int.log 10 (12345678909/1000000 : ℚ) = 4 := by
    rw [Int.log_of_one_le_right _ (by norm_num)]
    have hf : ⌊(12345678909/1000000 : ℚ)⌋₊ = 12345 := by
      rw [Nat.floor_eq_iff (by norm_num)]
      norm_num
    rw [hf]
    norm_cast
    apply Nat.log_eq_of_pow_le_of_lt_pow <;> norm_num
  rw [hlog]
  dsimp only
  have harg : (12345678909/1000000 : ℚ) / (10 : ℚ) ^ ((4 : ℤ) - 6) =
      12345678909/10000 := by norm_num
  rw [harg, rndHE_mid]
  norm_num

/-- Rounding to 7 significant digits moves 12345.678909 to 12345.68. -/
theorem sigRound7_big : sigRound7 (12345678909/1000000) = 1234568/100 := by
  unfold sigRound7
  rw [if_neg (by norm_num), if_neg (by norm_num)]
  exact sigRound7Pos_big

/-- Rounding to 7 significant digits moves -12345.678909 to -12345.68. -/
theorem sigRound7_neg_big :
    sigRound7 (-(12345678909/1000000)) = -(1234568/100) := by
  unfold sigRound7
  rw [if_neg (by norm_num), if_pos (by norm_num), neg_neg, sigRound7Pos_big]

/-- Summing a constant-shifted function over a list adds
`length * constant`. -/
theorem sum_map_add_const {α : Type} (l : List α) (f : α → ℚ) (c : ℚ) :
    (l.map fun a => f a + c).sum = (l.map f).sum + l.length * c := by
  induction l with
  | nil => simp
  | cons a as ih =>
    simp only [List.map_cons, List.sum_cons, List.length_cons, ih]
    push_cast
    ring

/-- Translating every member moves the centroid by the same offset. -/
theorem centroid_map_translate (props : List SProp) (d : Vec)
    (h : props ≠ []) :
    centroid (props.map (translateProp d)) =
      ⟨(centroid props).x + d.x, (centroid props).y + d.y,
        (centroid props).z + d.z⟩ := by
  have hn : (props.length : ℚ) ≠ 0 :=
    Nat.cast_ne_zero.mpr fun h0 => h (List.length_eq_zero.mp h0)
  unfold centroid sumX sumY sumZ
  simp only [List.map_map, List.length_map, Vec.mk.injEq, Function.comp_def,
    translateProp]
  refine ⟨?_, ?_, ?_⟩ <;>
    rw [sum_map_add_const, add_div, mul_comm, mul_div_assoc,
      div_self hn, mul_one]

/-- Claim C1 (amended): translating every member of a non-empty cluster
by one common offset leaves the Fingerprint unchanged; a common *yaw
rotation* does not in general (see the counterexample), because
`combine_group` fixes the normalization yaw at zero and removes no
rotation. -/
theorem propKey_translation_invariant (props : List SProp) (d : Vec)
    (h : props ≠ []) :
    propKey (props.map (translateProp d)) = propKey props := by
  unfold propKey
  rw [List.map_map]
  congr 1
  apply List.map_congr_left
  intro p hp
  rw [Function.comp_apply, centroid_map_translate props d h]
  unfold mkPropPos translateProp
  simp only
  congr 2 <;> ring_nf

/-- Witness for C1 (amended): translating the two-prop cluster at
x = 0, 100 by the offset (7, -3, 2) leaves its Fingerprint unchanged. -/
theorem propKey_translation_invariant_witness :
    propKey ([pA0, pA100].map (translateProp ⟨7, -3, 2⟩)) =
      propKey [pA0, pA100] :=
  propKey_translation_invariant [pA0, pA100] ⟨7, -3, 2⟩ (by simp)

/-- Counterexample for C1 as stated: rotating every member of the cluster
at x = 0, 100 by a common yaw of 90 degrees produces a *different*
Fingerprint — the relative positions rotate and the yaw angles shift,
and the zero normalization yaw removes neither. -/
theorem propKey_yaw_rotation_cex :
    propKey ([pA0, pA100].map yawRot90) ≠ propKey [pA0, pA100] := by
  intro heq
  have h1 : mkPropPos (yawRot90 pA100)
      (centroid ([pA0, pA100].map yawRot90)) ∈
      propKey ([pA0, pA100].map yawRot90) := by
    unfold propKey
    rw [List.mem_toFinset]
    exact List.mem_map.mpr ⟨yawRot90 pA100, by simp, rfl⟩
  rw [heq] at h1
  unfold propKey at h1
  rw [List.mem_toFinset, List.mem_map] at h1
  obtain ⟨p, hp, hEq⟩ := h1
  have hyaw := congrArg PropPos.yaw hEq
  have hpy : p.angles.y = 0 := by
    simp only [List.mem_cons, List.not_mem_nil, or_false] at hp
    rcases hp with h | h
    · rw [h]; norm_num [pA0, mkTestProp]
    · rw [h]; norm_num [pA100, mkTestProp]
  rw [mkPropPos, mkPropPos] at hyaw
  simp only at hyaw
  rw [hpy] at hyaw
  have h90 : (yawRot90 pA100).angles.y = 90 := by
    norm_num [yawRot90, pA100, mkTestProp]
  rw [h90, pyRound7_zero, pyRound7_ninety] at hyaw
  norm_num at hyaw

/-- The high-precision mirror cluster is centred at the origin. -/
theorem centroid_p7 : centroid [p7a, p7b] = ⟨0, 0, 0⟩ := by
  norm_num [centroid, sumX, sumY, sumZ, p7a, p7b, mkTestProp, Vec.mk.injEq]

/-- Counterexample for C7 as stated: the Fingerprint `combine_group`
computes for the mirror cluster at x = ±12345.678909 differs from the
spec-worded 7-*significant*-digit Fingerprint: the source's `round(x, 7)`
keeps all 11 significant digits of the relative coordinate 12345.678909
(7 decimal places), while 7-significant-digit rounding would store
12345.68. -/
theorem propKey_seven_sig_digits_cex :
    propKey [p7a, p7b] ≠ propKeySig [p7a, p7b] := by
  intro heq
  have h1 : mkPropPos p7a (centroid [p7a, p7b]) ∈ propKey [p7a, p7b] := by
    unfold propKey
    rw [List.mem_toFinset]
    exact List.mem_map.mpr ⟨p7a, by simp, rfl⟩
  rw [heq] at h1
  unfold propKeySig at h1
  rw [List.mem_toFinset, List.mem_map] at h1
  obtain ⟨p, hp, hEq⟩ := h1
  have hx := congrArg PropPos.x hEq
  rw [mkPropPosSig, mkPropPos] at hx
  simp only at hx
  rw [centroid_p7] at hx
  simp only [List.mem_cons, List.not_mem_nil, or_false] at hp
  have hax : p7a.origin.x = 12345678909/1000000 := by
    norm_num [p7a, mkTestProp]
  rcases hp with h | h <;> rw [h] at hx
  · rw [hax] at hx
    rw [show (12345678909/1000000 : ℚ) - 0 = 12345678909/1000000 by ring]
      at hx
    rw [sigRound7_big, pyRound7_big] at hx
    norm_num at hx
  · rw [hax] at hx
    have hbx : p7b.origin.x = -(12345678909/1000000) := by
      norm_num [p7b, mkTestProp]
    rw [hbx] at hx
    rw [show (-(12345678909/1000000) : ℚ) - 0 = -(12345678909/1000000)
      by ring] at hx
    rw [show (12345678909/1000000 : ℚ) - 0 = 12345678909/1000000 by ring]
      at hx
    rw [sigRound7_neg_big, pyRound7_big] at hx
    norm_num at hx

/-- Claim C7 (amended): the per-member tuple entering the Fingerprint
stores the relative position (origin minus centroid) and the orientation
each rounded to 7 *decimal places* (`round(x, 7)`), not 7 significant
digits. -/
theorem propKey_member_rounding (props : List SProp) (p : SProp)
    (hp : p ∈ props) :
    (⟨pyRound7 (p.origin.x - (centroid props).x),
      pyRound7 (p.origin.y - (centroid props).y),
      pyRound7 (p.origin.z - (centroid props).z),
      pyRound7 p.angles.x, pyRound7 p.angles.y, pyRound7 p.angles.z,
      p.model, p.skin⟩ : PropPos) ∈ propKey props := by
  unfold propKey
  rw [List.mem_toFinset]
  exact List.mem_map.mpr ⟨p, hp, rfl⟩

/-- Witness for C7 (amended): the tuple of the prop at x = 12345.678909,
with its relative position rounded to 7 decimal places, is a member of
the mirror cluster's Fingerprint. -/
theorem propKey_member_rounding_witness :
    (⟨pyRound7 (p7a.origin.x - (centroid [p7a, p7b]).x),
      pyRound7 (p7a.origin.y - (centroid [p7a, p7b]).y),
      pyRound7 (p7a.origin.z - (centroid [p7a, p7b]).z),
      pyRound7 p7a.angles.x, pyRound7 p7a.angles.y, pyRound7 p7a.angles.z,
      p7a.model, p7a.skin⟩ : PropPos) ∈ propKey [p7a, p7b] :=
  propKey_member_rounding [p7a, p7b] p7a (by simp)

/-- Boolean membership `memB` agrees with list membership. -/
theorem memB_eq_true_iff (p : SProp) (l : List SProp) :
    memB p l = true ↔ p ∈ l := by
  induction l with
  | nil => simp [memB]
  | cons q qs ih =>
    by_cases h : p = q
    · simp [memB, h]
    · simp [memB, h, ih]

/-- The re-filtered kept set never exceeds `MAX_GROUP` members. -/
theorem keptOf_length_le (distSq largeSq : ℚ) (center : SProp)
    (rest : List SProp) :
    (keptOf distSq largeSq center rest).length ≤ MAX_GROUP := by
  unfold keptOf
  dsimp only
  rw [List.length_map, List.length_take]
  exact min_le_left _ _

/-- The pool left by one clustering iteration never grows beyond the
popped pool. -/
theorem autoStep_newTodo_le (distSq largeSq : ℚ) (minc : ℕ)
    (center : SProp) (rest : List SProp) :
    (autoStep distSq largeSq minc center rest).newTodo.length ≤
      rest.length := by
  unfold autoStep
  dsimp only
  split
  · exact le_refl _
  · split <;> exact List.length_filter_le _ _

/-- A cluster yielded by one iteration is its kept set, and the branch
guard guarantees its size bounds. -/
theorem autoStep_emitted_bounds (distSq largeSq : ℚ) (minc : ℕ)
    (center : SProp) (rest : List SProp) (cl : List SProp)
    (h : (autoStep distSq largeSq minc center rest).emitted = some cl) :
    minc ≤ cl.length ∧ cl.length ≤ MAX_GROUP := by
  unfold autoStep at h
  dsimp only at h
  split at h
  · simp at h
  · split at h
    next hle =>
      simp only [Option.some.injEq] at h
      subst h
      exact ⟨hle, keptOf_length_le _ _ _ _⟩
    next => simp at h

/-- Size bounds for every cluster yielded while draining one bucket. -/
theorem processBucket_mem_bounds (distSq largeSq : ℚ) (minc : ℕ) :
    ∀ (n : ℕ) (todo : List SProp), todo.length ≤ n →
      ∀ cl ∈ (processBucket distSq largeSq minc todo).1,
        minc ≤ cl.length ∧ cl.length ≤ MAX_GROUP := by
  intro n
  induction n with
  | zero =>
    intro todo hlen cl hcl
    rw [List.length_eq_zero.mp (Nat.le_zero.mp hlen)] at hcl
    simp [processBucket] at hcl
  | succ n ih =>
    intro todo hlen cl hcl
    match todo with
    | [] => simp [processBucket] at hcl
    | center :: rest =>
      rw [processBucket] at hcl
      rcases List.mem_append.mp hcl with hl | hr
      · exact autoStep_emitted_bounds _ _ _ _ _ _ (Option.mem_toList.mp hl)
      · have hlen2 : (autoStep distSq largeSq minc center rest).newTodo.length ≤ n := by
          have h1 := autoStep_newTodo_le distSq largeSq minc center rest
          have h2 : rest.length ≤ n := by simpa using hlen
          exact le_trans h1 h2
        exact ih _ hlen2 cl hr

/-- Claim C10: each iteration of the per-bucket loop of
`group_props_auto` strictly shrinks the unprocessed pool — the popped
seed never returns — so the loop terminates on every finite input (the
model `processBucket` is accepted as total by exactly this measure). -/
theorem groupPropsAuto_pool_strictly_decreases (distSq largeSq : ℚ)
    (minc : ℕ) (center : SProp) (rest : List SProp) :
    (autoStep distSq largeSq minc center rest).newTodo.length <
      (center :: rest).length := by
  exact Nat.lt_succ_of_le (autoStep_newTodo_le distSq largeSq minc center rest)

/-- Claim C4: every cluster emitted by automatic distance-based
clustering has at least `min_cluster` and at most `MAX_GROUP` (24)
members. -/
theorem groupPropsAuto_cluster_size_bounds (buckets : List (List SProp))
    (dist : ℚ) (minc : ℕ) (cl : List SProp)
    (hcl : cl ∈ (groupPropsAuto dist minc buckets).1) :
    minc ≤ cl.length ∧ cl.length ≤ MAX_GROUP := by
  induction buckets with
  | nil => simp [groupPropsAuto] at hcl
  | cons g gs ih =>
    rw [groupPropsAuto] at hcl
    dsimp only at hcl
    split at hcl
    · exact ih hcl
    · rcases List.mem_append.mp hcl with hl | hr
      · exact processBucket_mem_bounds _ _ _ g.length g (le_refl _) cl hl
      · exact ih hr

/-- Witness for C4: the spec scenario (props at x = 0, 100, 200,
`min_cluster = 2`, `radius = 150`) yields one cluster of all three, whose
size the theorem bounds. -/
theorem groupPropsAuto_cluster_size_bounds_witness :
    2 ≤ ([pA100, pA0, pA200] : List SProp).length ∧
      ([pA100, pA0, pA200] : List SProp).length ≤ MAX_GROUP :=
  groupPropsAuto_cluster_size_bounds [[pA0, pA100, pA200]] 150 2
    [pA100, pA0, pA200]
    (by norm_num [groupPropsAuto, processBucket, autoStep, keptOf, gather,
      bboxList, sortPairs, insPair, memB, distSqV, MAX_GROUP, pA0, pA100,
      pA200, mkTestProp, List.filterMap, List.foldl, List.take, List.map,
      List.filter])

/-- Counterexample for C5: with `dist = 60` (`dist_sq = 3600`,
`large_dist_sq = 14400`) and `min_cluster = 3`, the seed at x = 100
gathers the props at x = 0, 101, 200, but re-filtering around the
bounding-box centre keeps only the seed and the prop at x = 101.  The
kept set is below `min_cluster`, yet its non-seed member is removed from
the unprocessed pool and pushed to `rejected` — it does *not* remain
eligible for a later seed. -/
theorem autoStep_destructive_reject_cex :
    (autoStep 3600 14400 3 sC5 [bC5, aC5, dC5]).kept = [sC5, aC5] ∧
    (autoStep 3600 14400 3 sC5 [bC5, aC5, dC5]).kept.length < 3 ∧
    aC5 ≠ sC5 ∧
    aC5 ∉ (autoStep 3600 14400 3 sC5 [bC5, aC5, dC5]).newTodo ∧
    aC5 ∈ (autoStep 3600 14400 3 sC5 [bC5, aC5, dC5]).rejectedAdd := by
  norm_num [autoStep, keptOf, gather, bboxList, sortPairs, insPair, memB,
    distSqV, MAX_GROUP, sC5, bC5, aC5, dC5, mkTestProp, List.filterMap,
    List.foldl, List.take, List.map, List.filter]

/-- Claim C5 (amended): when a seed's kept set is smaller than
`min_cluster`, the iteration removes *every* kept member from the
unprocessed pool and appends the whole kept set to `rejected`
(`todo.difference_update(cluster_list)` runs before the size check); the
non-destructive seed-only rejection happens only at the earlier
gathered-set check. -/
theorem autoStep_short_kept_rejects_all (distSq largeSq : ℚ) (minc : ℕ)
    (center : SProp) (rest : List SProp)
    (hg : ¬ (gather largeSq center [center] rest).length < minc)
    (hk : (keptOf distSq largeSq center rest).length < minc) :
    (autoStep distSq largeSq minc center rest).rejectedAdd =
      keptOf distSq largeSq center rest ∧
    ∀ p ∈ keptOf distSq largeSq center rest,
      p ∉ (autoStep distSq largeSq minc center rest).newTodo := by
  unfold autoStep
  dsimp only
  rw [if_neg hg, if_neg (not_le.mpr hk)]
  refine ⟨rfl, fun p hp hmem => ?_⟩
  have h2 := (List.mem_filter.mp hmem).2
  rw [Bool.not_eq_true', ← Bool.not_eq_true] at h2
  exact h2 ((memB_eq_true_iff p _).mpr hp)

/-- Witness for C5 (amended): at the counterexample input the gathered
set has 4 members, the kept set 2 < 3, and both kept members leave the
pool and are rejected. -/
theorem autoStep_short_kept_rejects_all_witness :
    (autoStep 3600 14400 3 sC5 [bC5, aC5, dC5]).rejectedAdd =
      keptOf 3600 14400 sC5 [bC5, aC5, dC5] ∧
    ∀ p ∈ keptOf 3600 14400 sC5 [bC5, aC5, dC5],
      p ∉ (autoStep 3600 14400 3 sC5 [bC5, aC5, dC5]).newTodo :=
  autoStep_short_kept_rejects_all 3600 14400 3 sC5 [bC5, aC5, dC5]
    (by norm_num [gather, distSqV, MAX_GROUP, sC5, bC5, aC5, dC5, mkTestProp])
    (by norm_num [keptOf, gather, bboxList, sortPairs, insPair, distSqV,
      MAX_GROUP, sC5, bC5, aC5, dC5, mkTestProp, List.filterMap, List.foldl,
      List.take, List.map])

/-- Zero survives the `'{:g}'` round trip. -/
theorem fmtG_zero : fmtG 0 = 0 := by
  simp [fmtG]

/-- Half-even rounding of 123456.789 rounds up. -/
theorem rndHE_bad : rndHE (123456789/1000 : ℚ) = 123457 := by
  unfold rndHE
  have hf : ⌊(123456789/1000 : ℚ)⌋ = 123456 := by
    rw [Int.floor_eq_iff]
    constructor <;> norm_num
  dsimp only
  rw [hf]
  norm_num

/-- The value 12.3456789 printed at 6 significant digits becomes 12.3457. -/
theorem fmtGpos_bad : fmtGpos (123456789/10000000) = 123457/10000 := by
  unfold fmtGpos
  have hlog : Int.log 10 (123456789/10000000 : ℚ) = 1 := by
    rw [Int.log_of_one_le_right _ (by norm_num)]
    have hf : ⌊(123456789/10000000 : ℚ)⌋₊ = 12 := by
      rw [Nat.floor_eq_iff (by norm_num)]
      norm_num
    rw [hf]
    norm_cast
    apply Nat.log_eq_of_pow_le_of_lt_pow <;> norm_num
  rw [hlog]
  dsimp only
  have harg : (123456789/10000000 : ℚ) / (10 : ℚ) ^ ((1 : ℤ) - 5) =
      123456789/1000 := by norm_num
  rw [harg, rndHE_bad]
  norm_num

/-- The `'{:g}'` write/parse round trip moves 12.3456789 to 12.3457. -/
theorem fmtG_bad : fmtG (123456789/10000000) = 123457/10000 := by
  unfold fmtG
  rw [if_neg (by norm_num), if_neg (by norm_num)]
  exact fmtGpos_bad

/-- Counterexample for C2 as stated: a used record whose fingerprint
holds the coordinate 12.3456789 (which `round(x, 7)` produces but 6
significant digits cannot represent) does not survive the
`finalise`/`load` round trip — the reloaded fingerprint holds 12.3457
instead. -/
theorem cache_round_trip_cex :
    reloadEntries cacheBad ≠ usedEntries cacheBad := by
  unfold reloadEntries usedEntries cacheBad
  simp only [List.filterMap_cons, List.filterMap_nil, Finset.image_singleton,
    if_pos]
  intro heq
  simp only [List.cons.injEq, Prod.mk.injEq] at heq
  have h1 : ({serializePos ppBad} : Finset PropPos) = {ppBad} := heq.1.1
  rw [Finset.singleton_inj] at h1
  have hx := congrArg PropPos.x h1
  unfold serializePos ppBad at hx
  simp only at hx
  rw [fmtG_bad] at hx
  norm_num at hx

/-- Claim C2 (amended): `finalise` then `load` reproduces the set of
(Fingerprint, name, has_coll) entries of the records whose `used` flag is
true, *provided* every numeric field of every member of those
fingerprints is a fixed point of 6-significant-digit `'{:g}'`
formatting; fingerprints needing more precision are altered by the round
trip (see the counterexample). -/
theorem cache_round_trip_of_fixed
    (cache : List (Finset PropPos × MergedModel))
    (h : ∀ km ∈ cache, km.2.used = true → ∀ pp ∈ km.1,
      fmtG pp.x = pp.x ∧ fmtG pp.y = pp.y ∧ fmtG pp.z = pp.z ∧
      fmtG pp.pit = pp.pit ∧ fmtG pp.yaw = pp.yaw ∧ fmtG pp.rol = pp.rol) :
    reloadEntries cache = usedEntries cache := by
  induction cache with
  | nil => rfl
  | cons km rest ih =>
    have ihr := ih fun km2 hm => h km2 (List.mem_cons_of_mem _ hm)
    unfold reloadEntries usedEntries at ihr ⊢
    simp only [List.filterMap_cons]
    cases hu : km.2.used with
    | false => simpa [hu] using ihr
    | true =>
      have hser : ∀ pp ∈ km.1, serializePos pp = pp := by
        intro pp hpp
        obtain ⟨h1, h2, h3, h4, h5, h6⟩ :=
          h km (List.mem_cons_self _ _) hu pp hpp
        unfold serializePos
        cases pp
        simp only at h1 h2 h3 h4 h5 h6 ⊢
        rw [h1, h2, h3, h4, h5, h6]
      have himg : km.1.image serializePos = km.1 := by
        rw [Finset.image_congr (g := id) fun pp hpp => hser pp hpp,
          Finset.image_id]
      simp only [hu, if_pos, himg, ihr]

/-- Witness for C2 (amended): a cache with one used all-zero-transform
record and one unused record round-trips to exactly its used entries. -/
theorem cache_round_trip_of_fixed_witness :
    reloadEntries cacheGood = usedEntries cacheGood :=
  cache_round_trip_of_fixed cacheGood (by
    intro km hm hu pp hpp
    simp only [cacheGood, List.mem_cons, List.not_mem_nil, or_false] at hm
    rcases hm with h | h
    · rw [h] at hpp
      simp only [Finset.mem_singleton] at hpp
      rw [hpp]
      simp only [ppZero]
      exact ⟨fmtG_zero, fmtG_zero, fmtG_zero, fmtG_zero, fmtG_zero, fmtG_zero⟩
    · rw [h] at hu
      simp at hu)

/-- Reduction of `combine_group` on a cache hit: the cached record is
reused unchanged (no name allocation, no compile) and only its `used`
flag is set. -/
theorem combineGroup_hit (st : MMState) (q0 : SProp) (t : List SProp)
    (m : MergedModel)
    (hlook : lookupCache st.cache (propKey (q0 :: t)) = some m) :
    combineGroup st (q0 :: t) =
      some (⟨mergedModelPath st.folder m.name, 0, centroid (q0 :: t),
        ⟨0, 270, 0⟩, 1, sortedVisleafs (q0 :: t),
        if m.has_coll then q0.solidity else 0,
        q0.flags, centroid (q0 :: t), q0.tint, q0.renderfx⟩,
        ⟨markUsed st.cache (propKey (q0 :: t)), st.names, st.supply,
          st.folder, st.compiles⟩) := by
  rw [combineGroup, hlook]

/-- Reduction of `combine_group` on a cache miss with a successful name
probe: a new record is registered under the fingerprint, marked used, and
one compile is performed. -/
theorem combineGroup_miss (st : MMState) (p0 : SProp) (t : List SProp)
    (name : String) (sup2 : List String)
    (hmiss : lookupCache st.cache (propKey (p0 :: t)) = none)
    (hff : findFresh st.supply st.names = some (name, sup2)) :
    combineGroup st (p0 :: t) =
      some (⟨mergedModelPath st.folder name, 0, centroid (p0 :: t),
        ⟨0, 270, 0⟩, 1, sortedVisleafs (p0 :: t),
        if (decide (p0.solidity ≠ 0) : Bool) then p0.solidity else 0,
        p0.flags, centroid (p0 :: t), p0.tint, p0.renderfx⟩,
        ⟨markUsed
          ((propKey (p0 :: t),
            (⟨name, decide (p0.solidity ≠ 0), false⟩ : MergedModel)) ::
            st.cache) (propKey (p0 :: t)),
          name :: st.names, sup2, st.folder, st.compiles + 1⟩) := by
  rw [combineGroup, hmiss, hff]

/-- Marking a cached record used preserves its name and collision flag
under lookup. -/
theorem lookupCache_markUsed (c : List (Finset PropPos × MergedModel))
    (k : Finset PropPos) (m : MergedModel)
    (h : lookupCache c k = some m) :
    lookupCache (markUsed c k) k =
      some (⟨m.name, m.has_coll, true⟩ : MergedModel) := by
  induction c with
  | nil => simp [lookupCache] at h
  | cons km rest ih =>
    obtain ⟨k2, m2⟩ := km
    by_cases hk : k2 = k
    · subst hk
      rw [lookupCache, if_pos rfl] at h
      rw [markUsed, if_pos rfl, lookupCache, if_pos rfl]
      rw [Option.some_inj] at h
      rw [h]
    · rw [lookupCache, if_neg hk] at h
      rw [markUsed, if_neg hk, lookupCache, if_neg hk]
      exact ih h

/-- Evaluation of the first `combine_group` call on the solid two-prop
cluster from the fresh manager state. -/
theorem combineGroup_ex_eval :
    combineGroup st0 [pB0, pB100] = some (r1x, st1x) := by
  rw [combineGroup_miss st0 pB0 [pB100] "merge_0001" []
    (by simp [st0, lookupCache]) (by simp [st0, findFresh])]
  norm_num [r1x, st1x, st0, markUsed, mergedModelPath, centroid, sumX, sumY,
    sumZ, sortedVisleafs, sortZ, insZ, pB0, pB100, mkTestProp, Vec.mk.injEq,
    SProp.mk.injEq, MMState.mk.injEq, List.dedup]

/-- Claim C3: within one run, if a fingerprint is not yet cached, the
first `combine_group` call on it compiles exactly once, and a second call
on any cluster with an equal fingerprint succeeds, performs no further
compile, and returns the model registered by the first call. -/
theorem combineGroup_compiles_once (st : MMState) (props1 props2 : List SProp)
    (r1 : SProp) (st1 : MMState)
    (h1 : props1 ≠ []) (h2 : props2 ≠ [])
    (hkey : propKey props2 = propKey props1)
    (hmiss : lookupCache st.cache (propKey props1) = none)
    (hc1 : combineGroup st props1 = some (r1, st1)) :
    ∃ r2 st2, combineGroup st1 props2 = some (r2, st2) ∧
      st1.compiles = st.compiles + 1 ∧ st2.compiles = st1.compiles ∧
      r2.model = r1.model := by
  obtain ⟨p0, t1, rfl⟩ := List.exists_cons_of_ne_nil h1
  obtain ⟨q0, t2, rfl⟩ := List.exists_cons_of_ne_nil h2
  cases hff : findFresh st.supply st.names with
  | none =>
    rw [combineGroup, hmiss, hff] at hc1
    simp at hc1
  | some pr =>
    obtain ⟨name, sup2⟩ := pr
    rw [combineGroup_miss st p0 t1 name sup2 hmiss hff] at hc1
    simp only [Option.some.injEq, Prod.mk.injEq] at hc1
    obtain ⟨hr1, hst1⟩ := hc1
    have hcache1 : st1.cache =
        (propKey (p0 :: t1),
          (⟨name, decide (p0.solidity ≠ 0), true⟩ : MergedModel)) ::
          st.cache := by
      rw [← hst1]
      simp [markUsed]
    have hlook : lookupCache st1.cache (propKey (q0 :: t2)) =
        some (⟨name, decide (p0.solidity ≠ 0), true⟩ : MergedModel) := by
      rw [hcache1, hkey]
      simp [lookupCache]
    refine ⟨_, _, combineGroup_hit st1 q0 t2 _ hlook, ?_, rfl, ?_⟩
    · rw [← hst1]
    · rw [← hr1]
      simp only [mergedModelPath]
      rw [← hst1]

/-- Witness for C3: calling `combine_group` twice on the same fresh
two-prop cluster compiles exactly once and reuses the generated model. -/
theorem combineGroup_compiles_once_witness :
    ∃ r2 st2, combineGroup st1x [pB0, pB100] = some (r2, st2) ∧
      st1x.compiles = st0.compiles + 1 ∧ st2.compiles = st1x.compiles ∧
      r2.model = r1x.model :=
  combineGroup_compiles_once st0 [pB0, pB100] [pB0, pB100] r1x st1x
    (by simp) (by simp) rfl (by simp [st0, lookupCache]) combineGroup_ex_eval

/-- Claim C8: the merged prop returned by `combine_group` for a
non-empty cluster has the centroid as origin, the fixed canonical
orientation (0, 270, 0), unit scale, the sorted union of member visleafs,
flags/tint/render-effect copied from the first member, and solidity 0
unless the record's `has_coll` flag is set, in which case the first
member's solidity. -/
theorem combineGroup_returns_merged_prop (st : MMState) (p0 : SProp)
    (t : List SProp) (r : SProp) (st2 : MMState)
    (hc : combineGroup st (p0 :: t) = some (r, st2)) :
    r.origin = centroid (p0 :: t) ∧ r.angles = ⟨0, 270, 0⟩ ∧
    r.scaling = 1 ∧ r.visleafs = sortedVisleafs (p0 :: t) ∧
    r.flags = p0.flags ∧ r.tint = p0.tint ∧ r.renderfx = p0.renderfx ∧
    ∃ m, lookupCache st2.cache (propKey (p0 :: t)) = some m ∧
      r.solidity = if m.has_coll then p0.solidity else 0 := by
  cases hl : lookupCache st.cache (propKey (p0 :: t)) with
  | some m =>
    rw [combineGroup_hit st p0 t m hl] at hc
    simp only [Option.some.injEq, Prod.mk.injEq] at hc
    obtain ⟨hr, hst2⟩ := hc
    subst hst2
    refine ⟨by rw [← hr], by rw [← hr], by rw [← hr], by rw [← hr],
      by rw [← hr], by rw [← hr], by rw [← hr],
      ⟨m.name, m.has_coll, true⟩, ?_, by rw [← hr]⟩
    exact lookupCache_markUsed st.cache _ m hl
  | none =>
    cases hff : findFresh st.supply st.names with
    | none =>
      rw [combineGroup, hl, hff] at hc
      simp at hc
    | some pr =>
      obtain ⟨name, sup2⟩ := pr
      rw [combineGroup_miss st p0 t name sup2 hl hff] at hc
      simp only [Option.some.injEq, Prod.mk.injEq] at hc
      obtain ⟨hr, hst2⟩ := hc
      subst hst2
      refine ⟨by rw [← hr], by rw [← hr], by rw [← hr], by rw [← hr],
        by rw [← hr], by rw [← hr], by rw [← hr],
        ⟨name, decide (p0.solidity ≠ 0), true⟩, ?_, by rw [← hr]⟩
      rw [markUsed, if_pos rfl, lookupCache, if_pos rfl]

/-- Witness for C8: the merged prop of the solid two-prop cluster built
from the fresh state satisfies all the claimed field equations. -/
theorem combineGroup_returns_merged_prop_witness :
    r1x.origin = centroid [pB0, pB100] ∧ r1x.angles = ⟨0, 270, 0⟩ ∧
    r1x.scaling = 1 ∧ r1x.visleafs = sortedVisleafs [pB0, pB100] ∧
    r1x.flags = pB0.flags ∧ r1x.tint = pB0.tint ∧
    r1x.renderfx = pB0.renderfx ∧
    ∃ m, lookupCache st1x.cache (propKey [pB0, pB100]) = some m ∧
      r1x.solidity = if m.has_coll then pB0.solidity else 0 :=
  combineGroup_returns_merged_prop st0 pB0 [pB100] r1x st1x
    combineGroup_ex_eval

/-- Counterexample for C9 as stated: a cluster whose two members resolve
to *distinct* surface-property values "Metal" and "metal" (two distinct
strings) does not make `compile` raise — the values are casefolded before
the plurality check, so it returns normally with the folded value. -/
theorem compileHeader_case_distinct_cex :
    ([ppM1, ppM2].map fun pp => (lkC9 pp.model).surfaceprop).dedup.length
      = 2 ∧
    compileHeader lkC9 [ppM1, ppM2] = .ok ("metal", 1) := by
  constructor
  · decide
  · rfl

/-- Claim C9 (amended): for a non-empty cluster, `compile` raises a
`ValueError` whenever the members' *casefolded* surface-property values,
or their contents masks, are plural; when both are singular the error
branch is unreachable and the unified pair is returned. -/
theorem compileHeader_plural_checks (lookup : String → ModelInfo)
    (pp : List PropPos) (hne : pp ≠ []) :
    ((1 < (pp.map fun q =>
        strCasefold (lookup q.model).surfaceprop).dedup.length ∨
      1 < (pp.map fun q => (lookup q.model).contents).dedup.length) →
      ∃ e, compileHeader lookup pp = .error e) ∧
    ((pp.map fun q =>
        strCasefold (lookup q.model).surfaceprop).dedup.length ≤ 1 →
      (pp.map fun q => (lookup q.model).contents).dedup.length ≤ 1 →
      ∃ v, compileHeader lookup pp = .ok v) := by
  constructor
  · intro hplural
    unfold compileHeader
    by_cases hS : 1 < (pp.map fun q =>
        strCasefold (lookup q.model).surfaceprop).dedup.length
    · exact ⟨.multipleSurfaceprops, by rw [if_pos hS]⟩
    · have hC : 1 < (pp.map fun q =>
          (lookup q.model).contents).dedup.length := by
        rcases hplural with h | h
        · exact absurd h hS
        · exact h
      exact ⟨.multipleContents, by rw [if_neg hS, if_pos hC]⟩
  · intro hS hC
    unfold compileHeader
    have hSne : (pp.map fun q =>
        strCasefold (lookup q.model).surfaceprop).dedup ≠ [] := by
      simp [List.dedup_eq_nil, hne]
    have hCne : (pp.map fun q => (lookup q.model).contents).dedup ≠ [] := by
      simp [List.dedup_eq_nil, hne]
    obtain ⟨s, hs⟩ := List.length_eq_one.mp (le_antisymm hS
      (Nat.one_le_iff_ne_zero.mpr (by simpa using hSne)))
    obtain ⟨c, hc⟩ := List.length_eq_one.mp (le_antisymm hC
      (Nat.one_le_iff_ne_zero.mpr (by simpa using hCne)))
    rw [if_neg (by omega), if_neg (by omega), hs, hc]
    exact ⟨(s, c), rfl⟩

/-- Witness for C9 (amended): a homogeneous one-member cluster satisfies
both directions of the plurality-check characterisation. -/
theorem compileHeader_plural_checks_witness :
    ((1 < ([ppM2].map fun q =>
        strCasefold (lkC9 q.model).surfaceprop).dedup.length ∨
      1 < ([ppM2].map fun q => (lkC9 q.model).contents).dedup.length) →
      ∃ e, compileHeader lkC9 [ppM2] = .error e) ∧
    (([ppM2].map fun q =>
        strCasefold (lkC9 q.model).surfaceprop).dedup.length ≤ 1 →
      ([ppM2].map fun q => (lkC9 q.model).contents).dedup.length ≤ 1 →
      ∃ v, compileHeader lkC9 [ppM2] = .ok v) :=
  compileHeader_plural_checks lkC9 [ppM2] (by simp)

/-- Claim C6 evaluated at the failing input: the prop at x = 10 lies in
no box of the first region and inside the (only) box of the second
region, yet region-directed clustering rejects it.  After the first
region matched, the loop variable `group` is rebound by
`for group in found.values():` to the found cluster, so the second region
scans `[pR1a, pR1b]` instead of the bucket and the props at x = 10, 11
fall through to the final rejection pass. -/
theorem groupPropsEnt_shadowing_bug :
    propInBoxes regR1.boxes pR2a = false ∧
    propInBoxes regR2.boxes pR2a = true ∧
    groupPropsEnt [(∅, [pR1a, pR1b, pR2a, pR2b])] [regR1, regR2] 2 =
      ([[pR1a, pR1b]], [pR2a, pR2b]) := by
  refine ⟨?_, ?_, ?_⟩
  · norm_num [propInBoxes, inBbox, regR1, pR2a, mkTestProp, List.any]
  · norm_num [propInBoxes, inBbox, regR2, pR2a, mkTestProp, List.any]
  · norm_num [groupPropsEnt, entProcessBucket, entRegionStep, propInBoxes,
      inBbox, regR1, regR2, pR1a, pR1b, pR2a, pR2b, mkTestProp, List.foldl,
      List.filter, List.any, List.isEmpty, Option.getD]
